import Mathlib

/-!
Shallow embedding of the receiver core of `src/src/receiver.rs` (kc5nra/srt-rs).

The receiver is a `Stream` whose `poll` runs an unbounded loop; each loop
iteration (a) polls the ACK timer and, if it fired, builds and sends an ACK
control packet and increments `next_ack`; (b) polls the socket for the next
inbound packet, executing `panic!()` if the socket stream has ended; and
(c) dispatches the packet: every control type except `Handshake` hits
`unimplemented!()` (a process abort), `Handshake` is sent back verbatim to the
remote address, and a data packet only executes `self.lrsn = seq_number`.
No loop iteration ever returns a payload to the caller, and no iteration
touches `loss_list`, `ack_history_window` or `packet_history_window`.

The embedding makes the external collaborators explicit inputs: the timer fire
is a boolean, `sock.get_timestamp()` is an integer input, and `sock.poll()`
yields `some packet` (the source address is bound but unused by the code) or
`none` for permanent closure. One loop iteration is `step`; a whole run over a
list of iteration inputs is `run`. Sequence numbers, timestamps and socket
ids are `i32` in the source; they are modelled as `Int` carried unchanged
(no arithmetic is performed on them), except the counter `next_ack`, whose
`self.next_ack += 1` is `i32` arithmetic and is modelled with explicit
two-complement wrapping into the signed 32-bit range (`wrap32`), the
release-build semantics of the addition (a debug build would abort there).
-/

namespace SrtReceiver

/-- Payload bytes of a data packet (`BytesMut` in the source). -/
abbrev Payload := List Nat

/-- Modelled from the spec: the packet codec collaborator is not under `src/`;
per the spec the ACK control info carries the receiver high-water mark
(`AckControlInfo::new(self.lrsn)` in the source). -/
structure AckControlInfo where
  lrsn : Int
deriving DecidableEq, Repr

/-- Modelled from the spec and the match arms of `Receiver::poll`: the control
packet variants `Ack(seq, info)`, `Ack2(seq)`, `DropRequest(to_drop, info)`,
`Handshake(info)`, `KeepAlive`, `Nak(info)`, `Shutdown`; the opaque `info`
payloads of `DropRequest`, `Handshake` and `Nak` are modelled as integers. -/
inductive ControlTypes where
  | Ack (seq_num : Int) (info : AckControlInfo)
  | Ack2 (seq_num : Int)
  | DropRequest (to_drop : Int) (info : Int)
  | Handshake (info : Int)
  | KeepAlive
  | Nak (info : Int)
  | Shutdown
deriving DecidableEq, Repr

/-- Modelled from the spec and the match arms of `Receiver::poll`: a packet is
either a control packet `{timestamp, dest_sockid, control_type}` or a data
packet `{seq_number, message_loc, in_order_delivery, message_number,
timestamp, dest_sockid, payload}` (`message_loc` modelled as an integer). -/
inductive Packet where
  | Control (timestamp : Int) (dest_sockid : Int) (control_type : ControlTypes)
  | Data (seq_number : Int) (message_loc : Int) (in_order_delivery : Bool)
      (message_number : Int) (timestamp : Int) (dest_sockid : Int)
      (payload : Payload)
deriving DecidableEq, Repr

/-- `LossListEntry` from the source: sequence number, latest feedback time,
and the NAK feedback count `k`. -/
structure LossListEntry where
  seq_num : Int
  feedback_time : Int
  k : Int
deriving DecidableEq, Repr

/-- The `Receiver` state from the source, minus the external collaborators
(`sock` and the `ack_timer`, whose effects are modelled as step inputs).
The remote socket address is modelled as an integer identifier. -/
structure Receiver where
  remote : Int
  loss_list : List LossListEntry
  ack_history_window : List (Int × Int)
  packet_history_window : List (Int × Int)
  lrsn : Int
  next_ack : Int
deriving DecidableEq, Repr

/-- `Receiver::new`: all three windows empty, `lrsn = 0`, `next_ack = 0`. -/
def Receiver.new (remote : Int) : Receiver :=
  { remote := remote
    loss_list := []
    ack_history_window := []
    packet_history_window := []
    lrsn := 0
    next_ack := 0 }

/-- An outbound packet together with its destination address, as queued by
`self.sock.queue_sender.send((packet, addr))`. -/
abbrev SentPacket := Packet × Int

/-- The external inputs consumed by one iteration of the `poll` loop:
whether `ack_timer.poll()` returned ready, the value of
`sock.get_timestamp()`, and the result of `sock.poll()` (`none` models the
socket stream reporting permanent closure, `Ready(None)` in the source). -/
structure StepIn where
  ack_timer_fired : Bool
  timestamp : Int
  inbound : Option Packet
deriving DecidableEq, Repr

/-- Reduction of an integer into the signed 32-bit range, the wrapping
semantics of `i32` addition in a release build (a debug build aborts on
overflow instead; either way the value never exceeds the `i32` range). -/
def wrap32 (x : Int) : Int :=
  (x + 2147483648) % 4294967296 - 2147483648

/-- The ACK control packet built when the ACK timer fires (lines 80-84 of the
source): timestamp from the socket, `dest_sockid = 0`,
`ControlTypes::Ack(self.next_ack, AckControlInfo::new(self.lrsn))`. -/
def ackPacket (s : Receiver) (ts : Int) : Packet :=
  Packet.Control ts 0 (ControlTypes.Ack s.next_ack ⟨s.lrsn⟩)

/-- The timer-handling head of a loop iteration (lines 78-88): if the ACK
timer fired, send the ACK packet to the remote and increment `next_ack`,
an `i32` increment that wraps at the 32-bit boundary; otherwise no state
change and nothing sent. -/
def pollAckTimer (s : Receiver) (fired : Bool) (ts : Int) :
    Receiver × List SentPacket :=
  if fired then
    ({ s with next_ack := wrap32 (s.next_ack + 1) }, [(ackPacket s ts, s.remote)])
  else (s, [])

/-- The packet dispatch of a loop iteration (lines 98-133). `none` models the
process aborting: every control type except `Handshake` executes
`unimplemented!()`. A `Handshake` is sent back verbatim to the remote; a data
packet only executes `self.lrsn = seq_number` (its payload is dropped, and no
window is touched). -/
def handlePacket (s : Receiver) (pack : Packet) :
    Option (Receiver × List SentPacket) :=
  match pack with
  | Packet.Control _ _ control_type =>
    match control_type with
    | ControlTypes.Ack _ _ => none
    | ControlTypes.Ack2 _ => none
    | ControlTypes.DropRequest _ _ => none
    | ControlTypes.Handshake _ => some (s, [(pack, s.remote)])
    | ControlTypes.KeepAlive => none
    | ControlTypes.Nak _ => none
    | ControlTypes.Shutdown => none
  | Packet.Data seq_number _ _ _ _ _ _ =>
    some ({ s with lrsn := seq_number }, [])

/-- Outcome of one loop iteration: either the loop continues with a new state,
a list of sent packets and (per the source, never) a delivered payload, or
the process aborts (`panic!()` on socket closure, `unimplemented!()` on an
unhandled control type) after having sent the listed packets. -/
inductive StepResult where
  | ok (s : Receiver) (sent : List SentPacket) (delivered : Option Payload)
  | panicked (sent : List SentPacket)
deriving DecidableEq, Repr

/-- One iteration of the `poll` loop (lines 71-134): first the ACK timer is
polled and its emission performed, then the socket is polled; `None` from the
socket hits `panic!()`, otherwise the packet is dispatched. No path returns a
payload to the caller (`delivered` is `none` on every path), mirroring that
`poll` never returns `Ready(Some(payload))`. -/
def step (s : Receiver) (i : StepIn) : StepResult :=
  let t := pollAckTimer s i.ack_timer_fired i.timestamp
  match i.inbound with
  | none => StepResult.panicked t.2
  | some pack =>
    match handlePacket t.1 pack with
    | none => StepResult.panicked t.2
    | some (s2, out) => StepResult.ok s2 (t.2 ++ out) none

/-- The packets sent during one iteration, whether or not it aborted. -/
def sentOf : StepResult → List SentPacket
  | StepResult.ok _ sent _ => sent
  | StepResult.panicked sent => sent

/-- A run of the loop over a list of iteration inputs: final state (`none` if
the process aborted), all packets sent in order, and all payloads delivered
to the caller in order. Inputs after an abort are not consumed. -/
def run : Receiver → List StepIn → Option Receiver × List SentPacket × List Payload
  | s, [] => (some s, [], [])
  | s, i :: rest =>
    match step s i with
    | StepResult.panicked sent => (none, sent, [])
    | StepResult.ok s2 sent d =>
      let r := run s2 rest
      (r.1, sent ++ r.2.1, d.toList ++ r.2.2)

/-- The ACK sequence numbers carried by the ACK control packets of an
outbound packet sequence, in emission order. -/
def ackNums (sent : List SentPacket) : List Int :=
  sent.filterMap fun sp =>
    match sp.1 with
    | Packet.Control _ _ (ControlTypes.Ack n _) => some n
    | _ => none

/-- A convenient data packet constructor for concrete inputs. -/
def dataPacket (seq : Int) (payload : Payload) : Packet :=
  Packet.Data seq 0 true 0 0 0 payload

/-- A loop-iteration input carrying a data packet, timer not fired. -/
def dataIn (seq : Int) (payload : Payload) : StepIn :=
  ⟨false, 0, some (dataPacket seq payload)⟩

/-- The ACK numbers produced by k consecutive timer fires starting from
counter value a: each fire emits the current counter value and then
wrap-increments the counter. -/
def ackSeq : Int → Nat → List Int
  | _, 0 => []
  | a, k + 1 => a :: ackSeq (wrap32 (a + 1)) k

theorem ackNums_append (a b : List SentPacket) :
    ackNums (a ++ b) = ackNums a ++ ackNums b := by
  simp [ackNums, List.filterMap_append]

theorem ackNums_single_ack (s : Receiver) (ts : Int) :
    ackNums [(ackPacket s ts, s.remote)] = [s.next_ack] := by
  simp [ackNums, ackPacket]

/-- Continuing dispatch arms of `handlePacket` (handshake reflection and the
data arm) change none of the three windows, do not touch `next_ack`, and send
no ACK control packet. -/
theorem handlePacket_effects (s s2 : Receiver) (p : Packet) (out : List SentPacket)
    (h : handlePacket s p = some (s2, out)) :
    s2.loss_list = s.loss_list ∧ s2.ack_history_window = s.ack_history_window ∧
    s2.packet_history_window = s.packet_history_window ∧
    s2.next_ack = s.next_ack ∧ ackNums out = [] := by
  cases p with
  | Control ts ds ct =>
    cases ct <;> simp [handlePacket] at h
    obtain ⟨h1, h2⟩ := h
    subst h1
    subst h2
    simp [ackNums]
  | Data sq ml io mn ts ds pl =>
    simp [handlePacket] at h
    obtain ⟨h1, h2⟩ := h
    subst h1
    subst h2
    simp [ackNums]

theorem ackSeq_one (a : Int) : ackSeq a 1 = [a] := rfl

theorem ackSeq_length (a : Int) (k : Nat) : (ackSeq a k).length = k := by
  induction k generalizing a with
  | zero => rfl
  | succ k ih =>
    rw [show ackSeq a (k + 1) = a :: ackSeq (wrap32 (a + 1)) k from rfl,
      List.length_cons, ih]

theorem wrap32_mem_range (x : Int) :
    -2147483648 ≤ wrap32 x ∧ wrap32 x < 2147483648 := by
  unfold wrap32
  constructor <;> omega

theorem ackSeq_mem_bounds (k : Nat) : ∀ a x : Int, -2147483648 ≤ a →
    a < 2147483648 → x ∈ ackSeq a k → -2147483648 ≤ x ∧ x < 2147483648 := by
  induction k with
  | zero =>
    intro a x _ _ hx
    simp [ackSeq] at hx
  | succ k ih =>
    intro a x ha1 ha2 hx
    rw [show ackSeq a (k + 1) = a :: ackSeq (wrap32 (a + 1)) k from rfl] at hx
    rcases List.mem_cons.mp hx with h | h
    · subst h
      exact ⟨ha1, ha2⟩
    · exact ih (wrap32 (a + 1)) x (wrap32_mem_range (a + 1)).1
        (wrap32_mem_range (a + 1)).2 h

/-- As long as the counter does not reach the 32-bit boundary, the emitted
ACK numbers are strictly increasing. -/
theorem ackSeq_chain_of_bound (k : Nat) : ∀ a : Int, -2147483648 ≤ a →
    a + k ≤ 2147483648 → List.Chain' (· < ·) (ackSeq a k) := by
  induction k with
  | zero =>
    intro a _ _
    exact List.chain'_nil
  | succ k ih =>
    intro a ha hk
    cases k with
    | zero => exact List.chain'_singleton a
    | succ k2 =>
      have hw : wrap32 (a + 1) = a + 1 := by
        unfold wrap32
        omega
      show List.Chain' (· < ·) (a :: ackSeq (wrap32 (a + 1)) (k2 + 1))
      rw [hw, show ackSeq (a + 1) (k2 + 1) =
        (a + 1) :: ackSeq (wrap32 (a + 1 + 1)) k2 from rfl, List.chain'_cons]
      refine ⟨by omega, ?_⟩
      rw [← show ackSeq (a + 1) (k2 + 1) =
        (a + 1) :: ackSeq (wrap32 (a + 1 + 1)) k2 from rfl]
      exact ih (a + 1) (by omega) (by omega)

/-- More than 2^31 consecutive fires starting from counter 0 emit a
non-increasing adjacent pair: a strictly increasing list of more than 2^31
integers cannot fit between the head 0 and the 32-bit upper bound, so the
wrap at the boundary breaks the chain. -/
theorem ackSeq_not_chain (k : Nat) (hk : 2147483648 < k) :
    ¬ List.Chain' (· < ·) (ackSeq 0 k) := by
  intro hch
  obtain ⟨k2, rfl⟩ : ∃ k2, k = k2 + 1 := ⟨k - 1, by omega⟩
  have hpair : (ackSeq 0 (k2 + 1)).Pairwise (· < ·) := List.chain'_iff_pairwise.mp hch
  rw [show ackSeq 0 (k2 + 1) = 0 :: ackSeq (wrap32 1) k2 from rfl] at hpair
  have hpos : ∀ x ∈ ackSeq (wrap32 1) k2, (0 : Int) < x := (List.pairwise_cons.mp hpair).1
  have hnodup : ((0 : Int) :: ackSeq (wrap32 1) k2).Nodup :=
    hpair.imp fun h => ne_of_lt h
  have hsub : ((0 : Int) :: ackSeq (wrap32 1) k2).toFinset ⊆
      Finset.Icc (0 : Int) 2147483647 := by
    intro x hx
    rw [List.mem_toFinset] at hx
    rw [Finset.mem_Icc]
    rcases List.mem_cons.mp hx with h | h
    · subst h
      omega
    · have hb := ackSeq_mem_bounds k2 (wrap32 1) x (wrap32_mem_range 1).1
        (wrap32_mem_range 1).2 h
      have hp := hpos x h
      omega
  have hcard := Finset.card_le_card hsub
  rw [List.toFinset_card_of_nodup hnodup, Int.card_Icc] at hcard
  have hlen : ((0 : Int) :: ackSeq (wrap32 1) k2).length = k2 + 1 := by
    rw [List.length_cons, ackSeq_length]
  rw [hlen] at hcard
  omega

/-- The ACK numbers sent during a run starting from state `s` are the
wrap-incremented successors `s.next_ack, wrap32 (s.next_ack + 1), ...`, one
per fired timer (so at most one per iteration), in emission order. -/
theorem run_ackNums (inputs : List StepIn) (s : Receiver) :
    ∃ k : Nat, k ≤ inputs.length ∧ ackNums (run s inputs).2.1 = ackSeq s.next_ack k := by
  induction inputs generalizing s with
  | nil => exact ⟨0, Nat.le_refl 0, by simp [run, ackNums, ackSeq]⟩
  | cons i rest ih =>
    obtain ⟨fired, ts, inbound⟩ := i
    cases inbound with
    | none =>
      cases fired with
      | false =>
        refine ⟨0, Nat.zero_le _, ?_⟩
        simp [run, step, pollAckTimer, ackNums, ackSeq]
      | true =>
        refine ⟨1, by rw [List.length_cons]; omega, ?_⟩
        rw [ackSeq_one]
        simp [run, step, pollAckTimer]
        exact ackNums_single_ack s ts
    | some pack =>
      cases fired with
      | false =>
        cases hh : handlePacket s pack with
        | none =>
          refine ⟨0, Nat.zero_le _, ?_⟩
          simp [run, step, pollAckTimer, hh, ackNums, ackSeq]
        | some pr =>
          obtain ⟨s2, out⟩ := pr
          have heff := handlePacket_effects s s2 pack out hh
          obtain ⟨k, hkle, hk⟩ := ih s2
          refine ⟨k, by rw [List.length_cons]; omega, ?_⟩
          have hrw : (run s (⟨false, ts, some pack⟩ :: rest)).2.1 =
              out ++ (run s2 rest).2.1 := by
            simp [run, step, pollAckTimer, hh]
          rw [hrw, ackNums_append, heff.2.2.2.2, List.nil_append, hk, heff.2.2.2.1]
      | true =>
        cases hh : handlePacket { s with next_ack := wrap32 (s.next_ack + 1) } pack with
        | none =>
          refine ⟨1, by rw [List.length_cons]; omega, ?_⟩
          rw [ackSeq_one]
          have hrw : (run s (⟨true, ts, some pack⟩ :: rest)).2.1 =
              [(ackPacket s ts, s.remote)] := by
            simp [run, step, pollAckTimer, hh]
          rw [hrw, ackNums_single_ack]
        | some pr =>
          obtain ⟨s2, out⟩ := pr
          have heff := handlePacket_effects _ s2 pack out hh
          obtain ⟨k, hkle, hk⟩ := ih s2
          refine ⟨k + 1, by rw [List.length_cons]; omega, ?_⟩
          have hrw : (run s (⟨true, ts, some pack⟩ :: rest)).2.1 =
              ([(ackPacket s ts, s.remote)] ++ out) ++ (run s2 rest).2.1 := by
            simp [run, step, pollAckTimer, hh]
          rw [hrw, ackNums_append, ackNums_append, ackNums_single_ack, heff.2.2.2.2,
            List.append_nil, hk]
          have hna : s2.next_ack = wrap32 (s.next_ack + 1) := heff.2.2.2.1
          rw [hna, List.singleton_append]
          rfl

/-- Closed form of a run consuming only fired-timer iterations with a data
packet: it emits exactly one ACK per iteration, with the wrap-incremented
counter values. -/
theorem run_replicate_ackNums (n : Nat) (s : Receiver) :
    ackNums (run s (List.replicate n ⟨true, 0, some (dataPacket 0 [])⟩)).2.1 =
      ackSeq s.next_ack n := by
  induction n generalizing s with
  | zero => simp [run, ackNums, ackSeq]
  | succ n ih =>
    rw [List.replicate_succ]
    have hrw : (run s (⟨true, 0, some (dataPacket 0 [])⟩ ::
        List.replicate n ⟨true, 0, some (dataPacket 0 [])⟩)).2.1 =
        [(ackPacket s 0, s.remote)] ++
          (run { s with next_ack := wrap32 (s.next_ack + 1), lrsn := 0 }
            (List.replicate n ⟨true, 0, some (dataPacket 0 [])⟩)).2.1 := by
      simp [run, step, pollAckTimer, handlePacket, dataPacket]
    rw [hrw, ackNums_append, ackNums_single_ack, ih]
    rfl

/-- If the three windows are empty in the starting state, they are empty in
the final state of every run (no loop operation inserts into them). -/
theorem run_preserves_empty (inputs : List StepIn) (s0 : Receiver)
    (h0 : s0.loss_list = [] ∧ s0.ack_history_window = [] ∧ s0.packet_history_window = [])
    (s : Receiver) (h : (run s0 inputs).1 = some s) :
    s.loss_list = [] ∧ s.ack_history_window = [] ∧ s.packet_history_window = [] := by
  induction inputs generalizing s0 with
  | nil =>
    simp [run] at h
    subst h
    exact h0
  | cons i rest ih =>
    obtain ⟨fired, ts, inbound⟩ := i
    cases inbound with
    | none => cases fired <;> simp [run, step, pollAckTimer] at h
    | some pack =>
      cases fired with
      | false =>
        cases hh : handlePacket s0 pack with
        | none => simp [run, step, pollAckTimer, hh] at h
        | some pr =>
          obtain ⟨s2, out⟩ := pr
          have heff := handlePacket_effects s0 s2 pack out hh
          have h2 : (run s2 rest).1 = some s := by
            simpa [run, step, pollAckTimer, hh] using h
          refine ih s2 ⟨?_, ?_, ?_⟩ h2
          · rw [heff.1]; exact h0.1
          · rw [heff.2.1]; exact h0.2.1
          · rw [heff.2.2.1]; exact h0.2.2
      | true =>
        cases hh : handlePacket { s0 with next_ack := wrap32 (s0.next_ack + 1) } pack with
        | none => simp [run, step, pollAckTimer, hh] at h
        | some pr =>
          obtain ⟨s2, out⟩ := pr
          have heff := handlePacket_effects _ s2 pack out hh
          have h2 : (run s2 rest).1 = some s := by
            simpa [run, step, pollAckTimer, hh] using h
          refine ih s2 ⟨?_, ?_, ?_⟩ h2
          · rw [heff.1]; exact h0.1
          · rw [heff.2.1]; exact h0.2.1
          · rw [heff.2.2.1]; exact h0.2.2

/-- Claim C1 (the code diverges): an accepted data packet with sequence
number 100 and a nonempty payload updates `lrsn`, but its payload is never
delivered to the caller: the run yields an empty output stream, where the
claim requires the payload to appear in it. -/
theorem c1_data_payload_never_delivered :
    (run (Receiver.new 0) [dataIn 100 [42]]).2.2 = [] ∧
    (run (Receiver.new 0) [dataIn 100 [42]]).1 =
      some { Receiver.new 0 with lrsn := 100 } := by decide

/-- Claim C2 (the code diverges): a KeepAlive control packet arriving at the
receiver hits the `unimplemented!()` arm, so the iteration aborts the process
instead of continuing the loop; the claim requires the abort branch to be
unreachable. -/
theorem c2_keepalive_control_panics :
    step (Receiver.new 0) ⟨false, 0, some (Packet.Control 0 0 ControlTypes.KeepAlive)⟩ =
      StepResult.panicked [] := by decide

/-- Claim C3 (the code diverges): feeding data packets with sequence numbers
0, 1, 2, 5, 6 from the initial state leaves the loss list empty (the final
state is the fresh state with `lrsn = 6`), where the claim requires it to
contain exactly the gap entries 3 and 4. -/
theorem c3_gap_leaves_loss_list_empty :
    (run (Receiver.new 0)
      [dataIn 0 [], dataIn 1 [], dataIn 2 [], dataIn 5 [], dataIn 6 []]).1 =
      some { Receiver.new 0 with lrsn := 6 } := by decide

/-- Claim C4 (the code diverges): after data packets with sequence numbers 5
then 3, `lrsn` is 3: the code assigns the last received sequence number
unconditionally, so `lrsn` decreases below the largest received value 5,
where the claim (and the field doc comment of the source) requires the
high-water mark to be kept. -/
theorem c4_lrsn_set_to_last_received :
    (run (Receiver.new 0) [dataIn 5 [], dataIn 3 []]).1 =
      some { Receiver.new 0 with lrsn := 3 } := by decide

/-- Claim C5 (the code diverges): when the ACK timer fires, exactly one ACK
packet carrying the current `next_ack` and `lrsn` is emitted and `next_ack`
is incremented, but no pair is recorded into the ACK history window: it is
still empty in the post-state, where the claim requires the (ack number,
send time) pair to be recorded. -/
theorem c5_ack_emission_not_recorded :
    step (Receiver.new 0) ⟨true, 7, some (dataPacket 1 [])⟩ =
      StepResult.ok { Receiver.new 0 with lrsn := 1, next_ack := 1 }
        [(Packet.Control 7 0 (ControlTypes.Ack 0 ⟨0⟩), 0)] none := by decide

/-- Claim C6 as stated is refuted: on a run of 2^31 + 1 iterations, each with
the ACK timer fired and a continuing data packet inbound, the `i32` counter
`next_ack` wraps at the 32-bit boundary, so the emitted ACK sequence numbers
are not strictly increasing. -/
theorem c6_ack_overflow_counterexample :
    ¬ List.Chain' (· < ·)
      (ackNums (run (Receiver.new 0)
        (List.replicate 2147483649 ⟨true, 0, some (dataPacket 0 [])⟩)).2.1) := by
  rw [run_replicate_ackNums]
  exact ackSeq_not_chain 2147483649 (by norm_num)

/-- Claim C6 (amended): across any run of at most 2^31 loop iterations from a
fresh receiver, so that the `i32` counter `next_ack` cannot wrap, the ACK
sequence numbers carried by successively emitted ACK control packets are
strictly increasing (`next_ack` is wrap-incremented on each emission and
touched by nothing else). -/
theorem c6_ack_numbers_strictly_increasing (remote : Int) (inputs : List StepIn)
    (hlen : inputs.length ≤ 2147483648) :
    List.Chain' (· < ·) (ackNums (run (Receiver.new remote) inputs).2.1) := by
  obtain ⟨k, hkle, hk⟩ := run_ackNums inputs (Receiver.new remote)
  rw [hk]
  have h0 : (Receiver.new remote).next_ack = 0 := rfl
  rw [h0]
  exact ackSeq_chain_of_bound k 0 (by omega) (by omega)

/-- Witness for the amended C6 at a concrete two-iteration run with the ACK
timer fired in both iterations: the two emitted ACK numbers are 0 then 1. -/
theorem c6_ack_numbers_strictly_increasing_witness :
    ([⟨true, 0, some (dataPacket 7 [])⟩, ⟨true, 1, some (dataPacket 8 [])⟩] :
        List StepIn).length ≤ 2147483648 ∧
    List.Chain' (· < ·) (ackNums (run (Receiver.new 0)
      [⟨true, 0, some (dataPacket 7 [])⟩, ⟨true, 1, some (dataPacket 8 [])⟩]).2.1) :=
  ⟨by decide, c6_ack_numbers_strictly_increasing 0
    [⟨true, 0, some (dataPacket 7 [])⟩, ⟨true, 1, some (dataPacket 8 [])⟩] (by decide)⟩

/-- Claim C7: a received Handshake control packet is sent back to the remote
endpoint unmodified, and the receiver state is completely unchanged by its
processing. -/
theorem c7_handshake_reflected_verbatim (s : Receiver) (ts dsid info : Int) :
    handlePacket s (Packet.Control ts dsid (ControlTypes.Handshake info)) =
      some (s, [(Packet.Control ts dsid (ControlTypes.Handshake info), s.remote)]) := rfl

/-- Claim C8: in every loop iteration, the emission of a fired ACK timer is
computed from the pre-iteration state alone and precedes in the outbound
sequence everything the inbound packet contributes: the packet dispatch only
appends a suffix after the timer emissions, on every path including the
aborting ones. -/
theorem c8_timer_emission_precedes_packet_effects (s : Receiver) (i : StepIn) :
    ∃ rest, sentOf (step s i) =
      (if i.ack_timer_fired then [(ackPacket s i.timestamp, s.remote)] else []) ++ rest := by
  obtain ⟨fired, ts, inbound⟩ := i
  cases inbound with
  | none => cases fired <;> exact ⟨[], rfl⟩
  | some pack =>
    cases hh : handlePacket (pollAckTimer s fired ts).1 pack with
    | none =>
      refine ⟨[], ?_⟩
      cases fired <;> simp [step, sentOf, pollAckTimer] at hh ⊢ <;> simp [hh]
    | some pr =>
      obtain ⟨s2, out⟩ := pr
      refine ⟨out, ?_⟩
      cases fired <;> simp [step, sentOf, pollAckTimer] at hh ⊢ <;> simp [hh]

/-- Claim C9 (the code diverges): when the transport reports permanent
closure (the socket stream ends), the iteration executes `panic!()`: the
process aborts with nothing sent, instead of propagating a connection-closed
end-of-stream signal to the caller as the claim requires. -/
theorem c9_transport_closure_panics :
    step (Receiver.new 0) ⟨false, 0, none⟩ = StepResult.panicked [] := rfl

/-- Claim C10: in every state reached by a non-aborted run from a fresh
receiver, the loss list, the ACK history window and the packet history window
are all empty: they start empty and no operation of the loop ever inserts
into any of them. -/
theorem c10_windows_always_empty (remote : Int) (inputs : List StepIn) (s : Receiver)
    (h : (run (Receiver.new remote) inputs).1 = some s) :
    s.loss_list = [] ∧ s.ack_history_window = [] ∧ s.packet_history_window = [] :=
  run_preserves_empty inputs (Receiver.new remote) ⟨rfl, rfl, rfl⟩ s h

/-- Witness for C10 at a concrete one-iteration run: the ACK timer fires and
a data packet with sequence number 3 arrives. -/
theorem c10_windows_always_empty_witness :
    ({ remote := 9, loss_list := [], ack_history_window := [],
       packet_history_window := [], lrsn := 3, next_ack := 1 } : Receiver).loss_list = [] ∧
    ({ remote := 9, loss_list := [], ack_history_window := [],
       packet_history_window := [], lrsn := 3, next_ack := 1 } : Receiver).ack_history_window = [] ∧
    ({ remote := 9, loss_list := [], ack_history_window := [],
       packet_history_window := [], lrsn := 3, next_ack := 1 } : Receiver).packet_history_window = [] :=
  c10_windows_always_empty 9 [⟨true, 5, some (dataPacket 3 [])⟩]
    { remote := 9, loss_list := [], ack_history_window := [],
      packet_history_window := [], lrsn := 3, next_ack := 1 } (by decide)

end SrtReceiver
